import Mathlib

/-!
Verification of the watch-and-reconcile loop of the Ansible GitOps service
(`main.go`).  The Go code is embedded shallowly: pure control flow becomes
Lean functions, the filesystem and the git/process environment become
explicit function parameters, and the `repoStates` Go map becomes an
association list together with an explicit iteration order (Go map
iteration yields the entries in an arbitrary permutation).
-/

namespace GitOps

/-- Embeds the `Config` struct of `main.go` (lines 64-72). -/
structure Config where
  PlaybookPath  : String
  InventoryPath : String
  WatchInterval : Int
  WatchRepos    : List String
  Branch        : String
  GitHubToken   : String
  GitHubUser    : String
deriving Repr, DecidableEq

/-- Embeds `fileExists` (main.go lines 375-378): `os.Stat(path)` succeeding is
modelled by a filesystem predicate `fs : String → Bool` passed in explicitly. -/
def fileExists (fs : String → Bool) (path : String) : Bool :=
  fs path

/-- Embeds `Config.Validate` (main.go lines 74-97).  Returns `some msg` for the
error message of the first failing check, `none` on success, mirroring the
sequence of early returns in the Go code. -/
def Config.Validate (fs : String → Bool) (c : Config) : Option String :=
  if c.PlaybookPath = "" then
    some "playbook path is required"
  else if ¬ fileExists fs c.PlaybookPath then
    some ("playbook file does not exist: " ++ c.PlaybookPath)
  else if c.InventoryPath ≠ "" ∧ ¬ fileExists fs c.InventoryPath then
    some ("inventory file does not exist: " ++ c.InventoryPath)
  else if c.WatchInterval < 10 then
    some "watch interval must be at least 10 seconds"
  else if c.WatchRepos = [] then
    some "at least one repository must be specified"
  else if c.GitHubToken = "" then
    some "GitHub token is required"
  else if c.GitHubToken.length < 40 then
    some "invalid GitHub token format"
  else
    none

/-- The seven validation checks of `Config.Validate`, in source order, each
paired with its error message.  Used to state the first-failure-wins policy. -/
def Config.checks (fs : String → Bool) (c : Config) : List (Bool × String) :=
  [ (decide (c.PlaybookPath = ""), "playbook path is required"),
    (decide (¬ fileExists fs c.PlaybookPath), "playbook file does not exist: " ++ c.PlaybookPath),
    (decide (c.InventoryPath ≠ "" ∧ ¬ fileExists fs c.InventoryPath),
      "inventory file does not exist: " ++ c.InventoryPath),
    (decide (c.WatchInterval < 10), "watch interval must be at least 10 seconds"),
    (decide (c.WatchRepos = []), "at least one repository must be specified"),
    (decide (c.GitHubToken = ""), "GitHub token is required"),
    (decide (c.GitHubToken.length < 40), "invalid GitHub token format") ]

/-- The message of the first failing validation check, if any. -/
def Config.firstFailureMsg (fs : String → Bool) (c : Config) : Option String :=
  ((Config.checks fs c).find? Prod.fst).map Prod.snd

/-- Embeds Go `strconv.Atoi`: optional sign followed by at least one decimal
digit, rejecting anything else, and rejecting values outside the 64-bit
signed-integer range. -/
def atoi (s : String) : Option Int :=
  match s.data with
  | [] => none
  | c :: rest =>
    let ds : List Char := if c = '-' ∨ c = '+' then rest else c :: rest
    if ds = [] then none
    else if ds.all (fun d => d.isDigit) then
      let n : Nat := ds.foldl (fun acc d => acc * 10 + (d.toNat - 48)) 0
      if c = '-' then
        if n ≤ 2 ^ 63 then some (-(n : Int)) else none
      else
        if n ≤ 2 ^ 63 - 1 then some (n : Int) else none
    else none

/-- The environment variables read by `Config.LoadFromEnv` (main.go lines
99-123); `os.Getenv` returns `""` when a variable is unset, so each field is a
plain string and `""` means absent. -/
structure Env where
  ansiblePlaybook  : String
  ansibleInventory : String
  watchInterval    : String
  watchRepos       : String
  watchBranch      : String
  githubToken      : String
  githubUser       : String
deriving Repr, DecidableEq

/-- Embeds `Config.LoadFromEnv` (main.go lines 99-123): each non-empty
environment variable overwrites the corresponding field; `WATCH_INTERVAL` is
applied only when `strconv.Atoi` succeeds. -/
def Config.LoadFromEnv (env : Env) (c : Config) : Config :=
  let c := if env.ansiblePlaybook ≠ "" then { c with PlaybookPath := env.ansiblePlaybook } else c
  let c := if env.ansibleInventory ≠ "" then { c with InventoryPath := env.ansibleInventory } else c
  let c :=
    if env.watchInterval ≠ "" then
      match atoi env.watchInterval with
      | some v => { c with WatchInterval := v }
      | none => c
    else c
  let c := if env.watchRepos ≠ "" then { c with WatchRepos := env.watchRepos.splitOn "," } else c
  let c := if env.watchBranch ≠ "" then { c with Branch := env.watchBranch } else c
  let c := if env.githubToken ≠ "" then { c with GitHubToken := env.githubToken } else c
  if env.githubUser ≠ "" then { c with GitHubUser := env.githubUser } else c

/-- The command-line flag values parsed in `main` (main.go lines 131-139). -/
structure Flags where
  playbook    : String
  inventory   : String
  interval    : Int
  repos       : String
  branch      : String
  githubToken : String
  githubUser  : String
deriving Repr, DecidableEq

/-- Embeds the construction of `config` from the parsed flags in `main`
(main.go lines 142-154): `WatchRepos` stays `nil` unless the `-repos` flag is
non-empty, in which case it is split on commas. -/
def configFromFlags (f : Flags) : Config :=
  { PlaybookPath := f.playbook
    InventoryPath := f.inventory
    WatchInterval := f.interval
    WatchRepos := if f.repos ≠ "" then f.repos.splitOn "," else []
    Branch := f.branch
    GitHubToken := f.githubToken
    GitHubUser := f.githubUser }

/-- The configuration that reaches `config.Validate()` in `main` (main.go
lines 142-168): flags first, then `LoadFromEnv` applied on top. -/
def loadConfig (f : Flags) (env : Env) : Config :=
  Config.LoadFromEnv env (configFromFlags f)

/-- The external git environment observed by one tick: whether
`git -C repo checkout branch` succeeds, what `git -C repo rev-parse HEAD`
prints, and whether `git -C repo pull origin branch` succeeds. -/
structure GitEnv where
  checkoutOK : String → String → Bool
  revParse   : String → Option String
  pullOK     : String → String → Bool

/-- Embeds `getGitHash` (main.go lines 322-336): checkout of the branch
followed by `rev-parse HEAD`; `none` models the error returns. -/
def getGitHash (g : GitEnv) (repoPath branch : String) : Option String :=
  if g.checkoutOK repoPath branch then g.revParse repoPath else none

/-- Embeds `pullLatestChanges` (main.go lines 338-350): checkout of the branch
followed by `pull origin branch`; `false` models an error return. -/
def pullLatestChanges (g : GitEnv) (repoPath branch : String) : Bool :=
  g.checkoutOK repoPath branch && g.pullOK repoPath branch

/-- The `repoStates` Go map (`map[string]string`, main.go line 245), embedded
as an association list with unique keys. -/
abbrev RepoStates := List (String × String)

/-- Go map assignment `m[k] = v` on the association-list embedding: replace
the entry for `k` if present, append it otherwise. -/
def mapSet : RepoStates → String → String → RepoStates
  | [], k, v => [(k, v)]
  | p :: rest, k, v => if p.1 = k then (k, v) :: rest else p :: mapSet rest k v

/-- Go map lookup `m[k]` on the association-list embedding. -/
def lookupKey : RepoStates → String → Option String
  | [], _ => none
  | p :: rest, k => if p.1 = k then some p.2 else lookupKey rest k

/-- One iteration of the initial-state loop of `watchForChanges` (main.go
lines 248-256): `repoStates[repo] = hash` on success, `continue` (the
repository is not inserted) on error. -/
def initStep (g : GitEnv) (branch : String) (acc : RepoStates) (repo : String) : RepoStates :=
  match getGitHash g repo branch with
  | none => acc
  | some h => mapSet acc repo h

/-- Embeds the initial-state loop of `watchForChanges` (main.go lines
245-256), run over the configured repositories in order, starting from the
empty map. -/
def initStates (g : GitEnv) (branch : String) (repos : List String) : RepoStates :=
  repos.foldl (initStep g branch) []

/-- Embeds the per-repository body of the scan loop (main.go lines 281-304):
pull (on failure, `continue`), read the revision (on failure, `continue`),
and report `some currentHash` exactly when the revision differs from the
stored one. -/
def scanRepo (g : GitEnv) (branch repo lastHash : String) : Option String :=
  if pullLatestChanges g repo branch then
    match getGitHash g repo branch with
    | none => none
    | some currentHash => if currentHash ≠ lastHash then some currentHash else none
  else none

/-- Whether the scan-loop body marks this `(repo, lastHash)` entry as changed. -/
def repoChanged (g : GitEnv) (branch : String) (p : String × String) : Bool :=
  (scanRepo g branch p.1 p.2).isSome

/-- One iteration of the scan loop (main.go lines 276-306) acting on the
accumulated `(repoStates, changesDetected)` pair: on a changed revision the
map entry is overwritten and the flag set; otherwise nothing is mutated. -/
def tickStep (g : GitEnv) (branch : String) (acc : RepoStates × Bool) (p : String × String) :
    RepoStates × Bool :=
  match scanRepo g branch p.1 p.2 with
  | some newHash => (mapSet acc.1 p.1 newHash, true)
  | none => acc

/-- The full scan loop `for repo, lastHash := range repoStates` (main.go lines
274-306).  `order` is the sequence in which Go's map iteration yields the
entries of `repoStates`: an arbitrary permutation of the stored entries. -/
def scanTick (g : GitEnv) (branch : String) (states : RepoStates)
    (order : List (String × String)) : RepoStates × Bool :=
  order.foldl (tickStep g branch) (states, false)

/-- Observable outcome of one tick: the repository map after the scan, the
repositories visited in visit order, and how many times `runPlaybook` was
invoked. -/
structure TickResult where
  states : RepoStates
  scanned : List String
  playbookRuns : Nat
deriving Repr, DecidableEq

/-- Embeds one `ticker.C` iteration of `watchForChanges` (main.go lines
266-317): if the `checkAnsibleAvailability` probe fails the tick is skipped
(`continue`); otherwise every entry of `repoStates` is scanned in map
iteration `order` and `runPlaybook` is invoked once iff `changesDetected`. -/
def tick (g : GitEnv) (branch : String) (ansibleOK : Bool) (states : RepoStates)
    (order : List (String × String)) : TickResult :=
  if ansibleOK then
    let r := scanTick g branch states order
    { states := r.1
      scanned := order.map Prod.fst
      playbookRuns := if r.2 then 1 else 0 }
  else
    { states := states, scanned := [], playbookRuns := 0 }

/-- The Go error values that `runCommandWithTimeout` can surface: an
`*exec.ExitError` carrying the exit status of a process that ran and exited
non-zero, or a plain `fmt.Errorf` message. -/
inductive GoError where
  | exitError (code : Nat)
  | errorString (msg : String)
deriving Repr, DecidableEq

/-- The externally observable behaviour of one command run under a deadline:
it fails to start, it completes before the deadline with an exit code, or it
is still running when the deadline elapses (in which case the kill attempt
itself succeeds or fails with a message). -/
inductive ProcBehavior where
  | startFails (msg : String)
  | completes (exitCode : Nat)
  | exceedsDeadline (killOK : Bool) (killMsg : String)
deriving Repr, DecidableEq

/-- Embeds `runCommandWithTimeout` (main.go lines 380-403): a start failure is
wrapped as `failed to start command: ...`; a completion before the deadline
returns `cmd.Wait()`'s own result (`nil` on exit 0, an `*exec.ExitError`
otherwise); at the deadline the process is killed and the call returns
`command timed out`, unless the kill fails, in which case it returns
`failed to kill process: ...`. -/
def runCommandWithTimeout : ProcBehavior → Option GoError
  | .startFails msg => some (.errorString ("failed to start command: " ++ msg))
  | .completes exitCode =>
      if exitCode = 0 then none else some (.exitError exitCode)
  | .exceedsDeadline true _ => some (.errorString "command timed out")
  | .exceedsDeadline false killMsg =>
      some (.errorString ("failed to kill process: " ++ killMsg))

/-! ## Helper lemmas about the association-list embedding of the Go map -/

lemma lookupKey_mapSet_self (m : RepoStates) (k v : String) :
    lookupKey (mapSet m k v) k = some v := by
  induction m with
  | nil => simp [mapSet, lookupKey]
  | cons p rest ih =>
    by_cases h : p.1 = k
    · simp [mapSet, h, lookupKey]
    · simp [mapSet, h, lookupKey, ih]

lemma lookupKey_mapSet_ne (m : RepoStates) (k v r : String) (h : r ≠ k) :
    lookupKey (mapSet m k v) r = lookupKey m r := by
  induction m with
  | nil => simp [mapSet, lookupKey, Ne.symm h]
  | cons p rest ih =>
    by_cases hp : p.1 = k
    · simp [mapSet, hp, lookupKey, Ne.symm h]
    · by_cases hr : p.1 = r <;> simp [mapSet, hp, lookupKey, hr, ih, h]

lemma lookupKey_eq_none_iff (m : RepoStates) (r : String) :
    lookupKey m r = none ↔ r ∉ m.map Prod.fst := by
  induction m with
  | nil => simp [lookupKey]
  | cons p rest ih =>
    by_cases h : p.1 = r
    · simp [lookupKey, h]
    · have h' : r ≠ p.1 := fun e => h e.symm
      simp [lookupKey, h, ih, h']

lemma mem_keys_mapSet (m : RepoStates) (k v j : String) (hj : j ≠ k) :
    j ∈ (mapSet m k v).map Prod.fst ↔ j ∈ m.map Prod.fst := by
  induction m with
  | nil => simp [mapSet, hj]
  | cons p rest ih =>
    by_cases h : p.1 = k <;> simp [mapSet, h, ih, hj]

/-! ## Helper lemmas about the scan loop -/

lemma scanFold_snd (g : GitEnv) (b : String) (o : List (String × String))
    (m : RepoStates) (fl : Bool) :
    (o.foldl (tickStep g b) (m, fl)).2 = (fl || o.any (repoChanged g b)) := by
  induction o generalizing m fl with
  | nil => simp
  | cons p rest ih =>
    cases h : scanRepo g b p.1 p.2 with
    | none => simp [tickStep, repoChanged, h, ih]
    | some nh => simp [tickStep, repoChanged, h, ih]

lemma scanTick_snd (g : GitEnv) (b : String) (s : RepoStates)
    (o : List (String × String)) :
    (scanTick g b s o).2 = o.any (repoChanged g b) := by
  simpa using scanFold_snd g b o s false

lemma scanFold_fst_notmem (g : GitEnv) (b : String) (o : List (String × String))
    (r : String) (hr : r ∉ o.map Prod.fst) (m : RepoStates) (fl : Bool) :
    lookupKey (o.foldl (tickStep g b) (m, fl)).1 r = lookupKey m r := by
  revert hr
  induction o generalizing m fl with
  | nil => intro _; simp
  | cons p rest ih =>
    intro hr
    simp only [List.map_cons, List.mem_cons, not_or] at hr
    cases h : scanRepo g b p.1 p.2 with
    | none =>
      simp only [List.foldl_cons, tickStep, h]
      exact ih m fl hr.2
    | some nh =>
      simp only [List.foldl_cons, tickStep, h]
      rw [ih (mapSet m p.1 nh) true hr.2]
      exact lookupKey_mapSet_ne m p.1 nh r hr.1

lemma scanFold_fst_mem (g : GitEnv) (b : String) (o : List (String × String))
    (r l : String) (hnd : (o.map Prod.fst).Nodup) (hmem : (r, l) ∈ o)
    (m : RepoStates) (fl : Bool) :
    lookupKey (o.foldl (tickStep g b) (m, fl)).1 r =
      (match scanRepo g b r l with
       | some h => some h
       | none => lookupKey m r) := by
  revert hnd hmem
  induction o generalizing m fl with
  | nil => intro _ hmem; cases hmem
  | cons p rest ih =>
    intro hnd hmem
    simp only [List.map_cons, List.nodup_cons] at hnd
    rcases List.mem_cons.mp hmem with heq | hrest
    · have hp1 : p.1 = r := by rw [← heq]
      have hp2 : p.2 = l := by rw [← heq]
      have hnotin : r ∉ rest.map Prod.fst := hp1 ▸ hnd.1
      cases h : scanRepo g b r l with
      | none =>
        simp only [List.foldl_cons, tickStep, hp1, hp2, h]
        rw [scanFold_fst_notmem g b rest r hnotin m fl]
      | some nh =>
        simp only [List.foldl_cons, tickStep, hp1, hp2, h]
        rw [scanFold_fst_notmem g b rest r hnotin (mapSet m r nh) true]
        exact lookupKey_mapSet_self m r nh
    · have hrk : r ∈ rest.map Prod.fst :=
        List.mem_map.mpr ⟨(r, l), hrest, rfl⟩
      have hpr : p.1 ≠ r := fun e => hnd.1 (e ▸ hrk)
      cases h : scanRepo g b p.1 p.2 with
      | none =>
        simp only [List.foldl_cons, tickStep, h]
        exact ih m fl hnd.2 hrest
      | some nh =>
        simp only [List.foldl_cons, tickStep, h]
        rw [ih (mapSet m p.1 nh) true hnd.2 hrest]
        cases hs : scanRepo g b r l with
        | none =>
          simp only
          exact lookupKey_mapSet_ne m p.1 nh r (Ne.symm hpr)
        | some nh2 => simp only

lemma perm_any (f : String × String → Bool) {o1 o2 : List (String × String)}
    (h : o1.Perm o2) : o1.any f = o2.any f := by
  cases h1 : o1.any f with
  | false =>
    rw [List.any_eq_false] at h1
    symm
    rw [List.any_eq_false]
    intro a ha
    exact h1 a (h.mem_iff.mpr ha)
  | true =>
    rw [List.any_eq_true] at h1
    obtain ⟨a, ha, hfa⟩ := h1
    symm
    rw [List.any_eq_true]
    exact ⟨a, h.subset ha, hfa⟩

/-! ## Helper lemmas about the initial-state loop -/

lemma initFold_notmem (g : GitEnv) (b : String) (repo : String)
    (hfail : getGitHash g repo b = none) (repos : List String) :
    ∀ acc : RepoStates, repo ∉ acc.map Prod.fst →
      repo ∉ (repos.foldl (initStep g b) acc).map Prod.fst := by
  induction repos with
  | nil => intro acc hacc; simpa using hacc
  | cons r rest ih =>
    intro acc hacc
    simp only [List.foldl_cons]
    cases h : getGitHash g r b with
    | none =>
      simp only [initStep, h]
      exact ih acc hacc
    | some hv =>
      simp only [initStep, h]
      apply ih
      rw [mem_keys_mapSet]
      · exact hacc
      · intro e
        rw [e] at hfail
        rw [h] at hfail
        cases hfail

lemma initStates_notmem (g : GitEnv) (b : String) (repos : List String)
    (repo : String) (hfail : getGitHash g repo b = none) :
    repo ∉ (initStates g b repos).map Prod.fst := by
  exact initFold_notmem g b repo hfail repos [] (by simp)

/-! ## Concrete git environments used as test inputs -/

/-- Concrete git environment: repository `a` fails its branch checkout (so its
revision lookup fails), repository `b` resolves to revision `hb`. -/
def gEnvDropA : GitEnv :=
  { checkoutOK := fun repo _ => if repo = "a" then false else true
    revParse := fun repo => if repo = "b" then some "hb" else none
    pullOK := fun _ _ => true }

/-- Concrete git environment: everything succeeds, `a` resolves to `ha` and
`b` resolves to `hb`. -/
def gEnvAB : GitEnv :=
  { checkoutOK := fun _ _ => true
    revParse := fun repo => if repo = "a" then some "ha" else if repo = "b" then some "hb" else none
    pullOK := fun _ _ => true }

/-- Concrete git environment: everything succeeds and `a` resolves to `h2`. -/
def gEnvNew : GitEnv :=
  { checkoutOK := fun _ _ => true
    revParse := fun repo => if repo = "a" then some "h2" else none
    pullOK := fun _ _ => true }

/-- Concrete git environment: pulling `a` fails, while `b` pulls fine and
resolves to the fresh revision `h3`. -/
def gEnvPullFail : GitEnv :=
  { checkoutOK := fun _ _ => true
    revParse := fun repo => if repo = "a" then some "h1" else if repo = "b" then some "h3" else none
    pullOK := fun repo _ => if repo = "a" then false else true }

/-! ## Claim theorems -/

/-- C1: on a tick whose tool probe succeeded, `runPlaybook` is invoked zero
times when no tracked repository changed and exactly once when at least one
changed, regardless of how many changed. -/
theorem C1_playbook_invoked_once_iff_changes (g : GitEnv) (branch : String)
    (s : RepoStates) (o : List (String × String)) :
    (tick g branch true s o).playbookRuns =
      if o.countP (repoChanged g branch) = 0 then 0 else 1 := by
  have hsnd := scanTick_snd g branch s o
  show (if (true : Bool) then
          let r := scanTick g branch s o
          ({ states := r.1, scanned := o.map Prod.fst,
             playbookRuns := if r.2 then 1 else 0 } : TickResult)
        else { states := s, scanned := [], playbookRuns := 0 }).playbookRuns = _
  rw [if_pos rfl]
  show (if (scanTick g branch s o).2 then 1 else 0) = _
  rw [hsnd]
  cases hany : o.any (repoChanged g branch) with
  | false =>
    have hz : o.countP (repoChanged g branch) = 0 :=
      List.countP_eq_zero.mpr (List.any_eq_false.mp hany)
    simp [hz]
  | true =>
    have hnz : o.countP (repoChanged g branch) ≠ 0 := by
      obtain ⟨a, ha, hfa⟩ := List.any_eq_true.mp hany
      have := List.countP_pos_iff.mpr ⟨a, ha, hfa⟩
      omega
    simp [hnz]

/-- C6: when the `checkAnsibleAvailability` probe fails at the start of a
tick, the whole tick is skipped: no repository is scanned, the stored state is
untouched, and the playbook is not run. -/
theorem C6_tool_probe_failure_skips_tick (g : GitEnv) (branch : String)
    (s : RepoStates) (o : List (String × String)) :
    tick g branch false s o = { states := s, scanned := [], playbookRuns := 0 } := rfl

/-- A timeout report can never coincide with a start-failure report: the two
`fmt.Errorf` messages differ. -/
lemma timed_out_ne_startfail (m : String) :
    ("command timed out" : String) ≠ "failed to start command: " ++ m := by
  intro h
  have hlen := congrArg String.length h
  rw [String.length_append] at hlen
  have h1 : ("command timed out" : String).length = 17 := rfl
  have h2 : ("failed to start command: " : String).length = 25 := rfl
  rw [h1, h2] at hlen
  omega

/-- C7 counterexample: a process that outlives its deadline but whose kill
attempt fails is reported as a kill failure, not as the timeout failure the
claim promises for every process that misses the deadline. -/
theorem C7_counterexample :
    runCommandWithTimeout (.exceedsDeadline false "process already finished") =
      some (.errorString "failed to kill process: process already finished") ∧
    runCommandWithTimeout (.exceedsDeadline false "process already finished") ≠
      some (.errorString "command timed out") := by
  exact ⟨rfl, by decide⟩

/-- C7 (amended): a process completing before the deadline yields its own
result (`nil` on exit 0, its exit error otherwise); a process that misses the
deadline is killed and — when the kill succeeds — reported as `command timed
out`, a failure distinct from any non-zero-exit failure and from any
failure-to-start error; if the kill itself fails, a kill-failure error is
returned instead. -/
theorem C7_timeout_reporting (startMsg killMsg : String) (code : Nat) (hc : code ≠ 0) :
    runCommandWithTimeout (.completes 0) = none ∧
    runCommandWithTimeout (.completes code) = some (.exitError code) ∧
    runCommandWithTimeout (.exceedsDeadline true killMsg) =
      some (.errorString "command timed out") ∧
    runCommandWithTimeout (.exceedsDeadline true killMsg) ≠
      runCommandWithTimeout (.completes code) ∧
    runCommandWithTimeout (.exceedsDeadline true killMsg) ≠
      runCommandWithTimeout (.startFails startMsg) ∧
    runCommandWithTimeout (.exceedsDeadline false killMsg) =
      some (.errorString ("failed to kill process: " ++ killMsg)) := by
  refine ⟨rfl, ?_, rfl, ?_, ?_, rfl⟩
  · simp [runCommandWithTimeout, hc]
  · simp [runCommandWithTimeout, hc]
  · simp [runCommandWithTimeout]
    exact timed_out_ne_startfail startMsg

/-- Witness for C7: concrete instances of the timeout-reporting theorem. -/
theorem C7_timeout_reporting_witness :
    runCommandWithTimeout (.completes 0) = none ∧
    runCommandWithTimeout (.exceedsDeadline true "kill") =
      some (.errorString "command timed out") := by
  have h := C7_timeout_reporting "start" "kill" 2 (by decide)
  exact ⟨h.1, h.2.2.1⟩

/-- C8: `Config.Validate` accepts a configuration exactly when the playbook
path is non-empty and exists, the inventory path (when given) exists, the
interval is at least 10, the repository list is non-empty, and the token is
present with length at least 40; on rejection it reports the message of the
first violated check in source order. -/
theorem C8_validate_characterization (fs : String → Bool) (c : Config) :
    (Config.Validate fs c = none ↔
      (c.PlaybookPath ≠ "" ∧ fileExists fs c.PlaybookPath = true ∧
       (c.InventoryPath = "" ∨ fileExists fs c.InventoryPath = true) ∧
       10 ≤ c.WatchInterval ∧ c.WatchRepos ≠ [] ∧
       c.GitHubToken ≠ "" ∧ 40 ≤ c.GitHubToken.length)) ∧
    Config.Validate fs c = Config.firstFailureMsg fs c := by
  constructor
  · unfold Config.Validate
    split_ifs with h1 h2 h3 h4 h5 h6 h7 <;> simp_all [fileExists] <;>
      first | omega | tauto
  · unfold Config.Validate Config.firstFailureMsg Config.checks
    by_cases h1 : c.PlaybookPath = ""
    · rw [if_pos h1, List.find?_cons_of_pos _ (by simp [h1])]
      rfl
    rw [if_neg h1, List.find?_cons_of_neg _ (by simp [h1])]
    by_cases h2 : fileExists fs c.PlaybookPath = true
    · rw [if_neg (not_not_intro h2), List.find?_cons_of_neg _ (by simp [h2])]
      by_cases h3 : c.InventoryPath ≠ "" ∧ ¬ fileExists fs c.InventoryPath = true
      · rw [if_pos h3, List.find?_cons_of_pos _ (by simp [h3.1, h3.2])]
        rfl
      rw [if_neg h3, List.find?_cons_of_neg _ (by simp; tauto)]
      by_cases h4 : c.WatchInterval < 10
      · rw [if_pos h4, List.find?_cons_of_pos _ (by simp [h4])]
        rfl
      rw [if_neg h4, List.find?_cons_of_neg _ (by simp [h4])]
      by_cases h5 : c.WatchRepos = []
      · rw [if_pos h5, List.find?_cons_of_pos _ (by simp [h5])]
        rfl
      rw [if_neg h5, List.find?_cons_of_neg _ (by simp [h5])]
      by_cases h6 : c.GitHubToken = ""
      · rw [if_pos h6, List.find?_cons_of_pos _ (by simp [h6])]
        rfl
      rw [if_neg h6, List.find?_cons_of_neg _ (by simp [h6])]
      by_cases h7 : c.GitHubToken.length < 40
      · rw [if_pos h7, List.find?_cons_of_pos _ (by simp [h7])]
        rfl
      rw [if_neg h7, List.find?_cons_of_neg _ (by simp [h7])]
      rfl
    · rw [if_pos h2, List.find?_cons_of_pos _ (by simp [h2])]
      rfl

/-- C2 counterexample: with configured repositories `["a","b"]` where `a`'s
initial revision lookup fails, `a` never enters the tracked state; a
subsequent tick over that state scans only `b`, so `a` is not retried,
contradicting the claim that it is retried every tick. -/
theorem C2_counterexample :
    "a" ∈ ["a", "b"] ∧
    getGitHash gEnvDropA "a" "main" = none ∧
    initStates gEnvDropA "main" ["a", "b"] = [("b", "hb")] ∧
    lookupKey (initStates gEnvDropA "main" ["a", "b"]) "a" = none ∧
    (tick gEnvDropA "main" true (initStates gEnvDropA "main" ["a", "b"])
        (initStates gEnvDropA "main" ["a", "b"])).scanned = ["b"] ∧
    "a" ∉ (tick gEnvDropA "main" true (initStates gEnvDropA "main" ["a", "b"])
        (initStates gEnvDropA "main" ["a", "b"])).scanned := by
  decide

/-- C2 (amended): a repository whose initial revision lookup fails is never
inserted into the tracked state; and since a tick scans only the entries of
the tracked state, a repository absent from it is not visited by the tick and
is still absent afterwards — it is permanently dropped from monitoring, never
retried. -/
theorem C2_failed_init_repo_dropped (g g' : GitEnv) (branch b' : String)
    (repos : List String) (repo : String) (ok : Bool)
    (s : RepoStates) (o : List (String × String))
    (hfail : getGitHash g repo branch = none)
    (hns : repo ∉ s.map Prod.fst) (hperm : o.Perm s) :
    repo ∉ (initStates g branch repos).map Prod.fst ∧
    repo ∉ (tick g' b' ok s o).scanned ∧
    lookupKey (tick g' b' ok s o).states repo = none := by
  have hko : repo ∉ o.map Prod.fst := fun hmem =>
    hns ((hperm.map Prod.fst).mem_iff.mp hmem)
  refine ⟨initStates_notmem g branch repos repo hfail, ?_, ?_⟩
  · cases ok with
    | false => exact List.not_mem_nil repo
    | true => exact hko
  · cases ok with
    | false => exact (lookupKey_eq_none_iff s repo).mpr hns
    | true =>
      show lookupKey (o.foldl (tickStep g' b') (s, false)).1 repo = none
      rw [scanFold_fst_notmem g' b' o repo hko s false]
      exact (lookupKey_eq_none_iff s repo).mpr hns

/-- Witness for C2 (amended): the concrete dropped repository `a`. -/
theorem C2_failed_init_repo_dropped_witness :
    "a" ∉ (initStates gEnvDropA "main" ["a", "b"]).map Prod.fst ∧
    "a" ∉ (tick gEnvDropA "main" true [("b", "hb")] [("b", "hb")]).scanned ∧
    lookupKey (tick gEnvDropA "main" true [("b", "hb")] [("b", "hb")]).states "a" = none :=
  C2_failed_init_repo_dropped gEnvDropA gEnvDropA "main" "main" ["a", "b"] "a" true
    [("b", "hb")] [("b", "hb")] (by decide) (by decide) (List.Perm.refl _)

/-- C3 counterexample: from configuration order `["a","b"]` the tracked state
lists `a` before `b`, but Go's map iteration may yield the entries as
`[b, a]` — a permutation of the tracked entries — and the tick then visits
`b` before `a`, not in insertion order. -/
theorem C3_counterexample :
    initStates gEnvAB "main" ["a", "b"] = [("a", "ha"), ("b", "hb")] ∧
    List.Perm [("b", "hb"), ("a", "ha")] (initStates gEnvAB "main" ["a", "b"]) ∧
    (tick gEnvAB "main" true (initStates gEnvAB "main" ["a", "b"])
        [("b", "hb"), ("a", "ha")]).scanned = ["b", "a"] ∧
    ["b", "a"] ≠ (initStates gEnvAB "main" ["a", "b"]).map Prod.fst := by
  decide

/-- C3 (amended): a tick scans exactly the tracked repositories, once each,
in whatever order the map iteration yields — an arbitrary permutation of the
tracked entries, not necessarily configuration order; the tick's observable
outcome (whether the playbook runs, and every repository's resulting stored
revision) is identical for every iteration order. -/
theorem C3_scan_order_independent (g : GitEnv) (b : String) (s : RepoStates)
    (o1 o2 : List (String × String))
    (hnd : (s.map Prod.fst).Nodup) (h1 : o1.Perm s) (h2 : o2.Perm s) :
    (tick g b true s o1).scanned.Perm (s.map Prod.fst) ∧
    (tick g b true s o1).playbookRuns = (tick g b true s o2).playbookRuns ∧
    ∀ r, lookupKey (tick g b true s o1).states r =
      lookupKey (tick g b true s o2).states r := by
  have h12 : o1.Perm o2 := h1.trans h2.symm
  refine ⟨?_, ?_, ?_⟩
  · exact h1.map Prod.fst
  · show (if (scanTick g b s o1).2 then 1 else 0) =
      (if (scanTick g b s o2).2 then (1 : Nat) else 0)
    rw [scanTick_snd, scanTick_snd, perm_any (repoChanged g b) h12]
  · intro r
    show lookupKey (o1.foldl (tickStep g b) (s, false)).1 r =
      lookupKey (o2.foldl (tickStep g b) (s, false)).1 r
    by_cases hr : r ∈ s.map Prod.fst
    · obtain ⟨p, hp, hpr⟩ := List.mem_map.mp hr
      have hmem1 : (r, p.2) ∈ o1 := h1.mem_iff.mpr (by rw [← hpr]; exact hp)
      have hmem2 : (r, p.2) ∈ o2 := h2.mem_iff.mpr (by rw [← hpr]; exact hp)
      have hnd1 : (o1.map Prod.fst).Nodup := ((h1.map Prod.fst).nodup_iff).mpr hnd
      have hnd2 : (o2.map Prod.fst).Nodup := ((h2.map Prod.fst).nodup_iff).mpr hnd
      rw [scanFold_fst_mem g b o1 r p.2 hnd1 hmem1 s false]
      rw [scanFold_fst_mem g b o2 r p.2 hnd2 hmem2 s false]
    · have hk1 : r ∉ o1.map Prod.fst := fun hmem =>
        hr ((h1.map Prod.fst).mem_iff.mp hmem)
      have hk2 : r ∉ o2.map Prod.fst := fun hmem =>
        hr ((h2.map Prod.fst).mem_iff.mp hmem)
      rw [scanFold_fst_notmem g b o1 r hk1 s false,
        scanFold_fst_notmem g b o2 r hk2 s false]

/-- Witness for C3 (amended): concrete instance over the two iteration
orders of the tracked state built from configuration `["a","b"]`. -/
theorem C3_scan_order_independent_witness :
    (tick gEnvAB "main" true [("a", "ha"), ("b", "hb")]
        [("b", "hb"), ("a", "ha")]).scanned.Perm
      ([("a", "ha"), ("b", "hb")].map Prod.fst) ∧
    (tick gEnvAB "main" true [("a", "ha"), ("b", "hb")]
        [("b", "hb"), ("a", "ha")]).playbookRuns =
      (tick gEnvAB "main" true [("a", "ha"), ("b", "hb")]
        [("a", "ha"), ("b", "hb")]).playbookRuns ∧
    lookupKey (tick gEnvAB "main" true [("a", "ha"), ("b", "hb")]
        [("b", "hb"), ("a", "ha")]).states "a" =
      lookupKey (tick gEnvAB "main" true [("a", "ha"), ("b", "hb")]
        [("a", "ha"), ("b", "hb")]).states "a" := by
  have h := C3_scan_order_independent gEnvAB "main" [("a", "ha"), ("b", "hb")]
    [("b", "hb"), ("a", "ha")] [("a", "ha"), ("b", "hb")]
    (by decide) (by decide) (List.Perm.refl _)
  exact ⟨h.1, h.2.1, h.2.2 "a"⟩

/-- C4: for a repository whose checkout, pull and revision read all succeed
in a tick, an unchanged revision leaves its stored entry untouched and does
not mark it changed, while a different revision replaces its stored entry
with the new revision, marks it changed, and the tick runs the playbook
once. -/
theorem C4_check_and_update (g : GitEnv) (b : String) (s : RepoStates)
    (o : List (String × String)) (repo last cur : String)
    (hnd : (o.map Prod.fst).Nodup) (hmem : (repo, last) ∈ o)
    (hpull : pullLatestChanges g repo b = true)
    (hhash : getGitHash g repo b = some cur) :
    (cur = last →
      lookupKey (tick g b true s o).states repo = lookupKey s repo ∧
      repoChanged g b (repo, last) = false) ∧
    (cur ≠ last →
      lookupKey (tick g b true s o).states repo = some cur ∧
      repoChanged g b (repo, last) = true ∧
      (tick g b true s o).playbookRuns = 1) := by
  constructor
  · intro heq
    have hscan : scanRepo g b repo last = none := by
      simp [scanRepo, hpull, hhash, heq]
    constructor
    · show lookupKey (o.foldl (tickStep g b) (s, false)).1 repo = lookupKey s repo
      rw [scanFold_fst_mem g b o repo last hnd hmem s false, hscan]
    · simp [repoChanged, hscan]
  · intro hne
    have hscan : scanRepo g b repo last = some cur := by
      simp [scanRepo, hpull, hhash, hne]
    have hch : repoChanged g b (repo, last) = true := by
      simp [repoChanged, hscan]
    refine ⟨?_, hch, ?_⟩
    · show lookupKey (o.foldl (tickStep g b) (s, false)).1 repo = some cur
      rw [scanFold_fst_mem g b o repo last hnd hmem s false, hscan]
    · show (if (scanTick g b s o).2 then 1 else 0) = 1
      rw [scanTick_snd]
      rw [List.any_eq_true.mpr ⟨(repo, last), hmem, hch⟩]
      rfl

/-- Witness for C4: the stored revision `h1` of `a` is replaced by the fresh
revision `h2` and the playbook runs once. -/
theorem C4_check_and_update_witness :
    lookupKey (tick gEnvNew "main" true [("a", "h1")] [("a", "h1")]).states "a" =
      some "h2" ∧
    (tick gEnvNew "main" true [("a", "h1")] [("a", "h1")]).playbookRuns = 1 := by
  have h := C4_check_and_update gEnvNew "main" [("a", "h1")] [("a", "h1")]
    "a" "h1" "h2" (by decide) (by decide) (by decide) (by decide)
  exact ⟨(h.2 (by decide)).1, (h.2 (by decide)).2.2⟩

/-- C5: a repository whose pull or revision read fails in a tick keeps its
stored revision exactly as it was, and the scan still processes the other
repositories: any other repository that did change still causes the single
playbook run. -/
theorem C5_failure_isolation (g : GitEnv) (b : String) (s : RepoStates)
    (o : List (String × String)) (repo last : String)
    (hnd : (o.map Prod.fst).Nodup) (hmem : (repo, last) ∈ o)
    (hfail : pullLatestChanges g repo b = false ∨ getGitHash g repo b = none) :
    lookupKey (tick g b true s o).states repo = lookupKey s repo ∧
    (∀ r2 l2, (r2, l2) ∈ o → repoChanged g b (r2, l2) = true →
      (tick g b true s o).playbookRuns = 1) := by
  have hscan : scanRepo g b repo last = none := by
    rcases hfail with h | h
    · simp [scanRepo, h]
    · cases hp : pullLatestChanges g repo b <;> simp [scanRepo, hp, h]
  constructor
  · show lookupKey (o.foldl (tickStep g b) (s, false)).1 repo = lookupKey s repo
    rw [scanFold_fst_mem g b o repo last hnd hmem s false, hscan]
  · intro r2 l2 hm2 hc2
    show (if (scanTick g b s o).2 then 1 else 0) = 1
    rw [scanTick_snd]
    rw [List.any_eq_true.mpr ⟨(r2, l2), hm2, hc2⟩]
    rfl

/-- Witness for C5: the scenario from the specification — pulling `/a` fails
while `b` pulls a fresh revision: `a`'s entry is untouched and the playbook
still runs once. -/
theorem C5_failure_isolation_witness :
    lookupKey (tick gEnvPullFail "main" true [("a", "h1"), ("b", "h2")]
        [("a", "h1"), ("b", "h2")]).states "a" =
      lookupKey [("a", "h1"), ("b", "h2")] "a" ∧
    (tick gEnvPullFail "main" true [("a", "h1"), ("b", "h2")]
        [("a", "h1"), ("b", "h2")]).playbookRuns = 1 := by
  have h := C5_failure_isolation gEnvPullFail "main" [("a", "h1"), ("b", "h2")]
    [("a", "h1"), ("b", "h2")] "a" "h1" (by decide) (by decide) (Or.inl (by decide))
  exact ⟨h.1, h.2 "b" "h2" (by decide) (by decide)⟩

lemma loadConfig_PlaybookPath (f : Flags) (env : Env) :
    (loadConfig f env).PlaybookPath =
      (if env.ansiblePlaybook ≠ "" then env.ansiblePlaybook else f.playbook) := by
  cases hA : atoi env.watchInterval <;>
    simp only [loadConfig, Config.LoadFromEnv, configFromFlags, hA,
      apply_ite Config.PlaybookPath, ite_self]

lemma loadConfig_InventoryPath (f : Flags) (env : Env) :
    (loadConfig f env).InventoryPath =
      (if env.ansibleInventory ≠ "" then env.ansibleInventory else f.inventory) := by
  cases hA : atoi env.watchInterval <;>
    simp only [loadConfig, Config.LoadFromEnv, configFromFlags, hA,
      apply_ite Config.InventoryPath, ite_self]

lemma loadConfig_WatchInterval (f : Flags) (env : Env) :
    (loadConfig f env).WatchInterval =
      (if env.watchInterval ≠ "" then
        (match atoi env.watchInterval with
         | some v => v
         | none => f.interval)
       else f.interval) := by
  cases hA : atoi env.watchInterval <;>
    simp only [loadConfig, Config.LoadFromEnv, configFromFlags, hA,
      apply_ite Config.WatchInterval, ite_self]

lemma loadConfig_WatchRepos (f : Flags) (env : Env) :
    (loadConfig f env).WatchRepos =
      (if env.watchRepos ≠ "" then env.watchRepos.splitOn ","
       else if f.repos ≠ "" then f.repos.splitOn "," else []) := by
  cases hA : atoi env.watchInterval <;>
    simp only [loadConfig, Config.LoadFromEnv, configFromFlags, hA,
      apply_ite Config.WatchRepos, ite_self]

lemma loadConfig_Branch (f : Flags) (env : Env) :
    (loadConfig f env).Branch =
      (if env.watchBranch ≠ "" then env.watchBranch else f.branch) := by
  cases hA : atoi env.watchInterval <;>
    simp only [loadConfig, Config.LoadFromEnv, configFromFlags, hA,
      apply_ite Config.Branch, ite_self]

lemma loadConfig_GitHubToken (f : Flags) (env : Env) :
    (loadConfig f env).GitHubToken =
      (if env.githubToken ≠ "" then env.githubToken else f.githubToken) := by
  cases hA : atoi env.watchInterval <;>
    simp only [loadConfig, Config.LoadFromEnv, configFromFlags, hA,
      apply_ite Config.GitHubToken, ite_self]

lemma loadConfig_GitHubUser (f : Flags) (env : Env) :
    (loadConfig f env).GitHubUser =
      (if env.githubUser ≠ "" then env.githubUser else f.githubUser) := by
  cases hA : atoi env.watchInterval <;>
    simp only [loadConfig, Config.LoadFromEnv, configFromFlags, hA,
      apply_ite Config.GitHubUser, ite_self]

/-- Field-by-field characterization of the configuration reaching validation:
every option with a non-empty environment value takes it, except the interval,
which falls back to the flag value when its environment value fails to parse. -/
lemma loadConfig_spec (f : Flags) (env : Env) :
    (loadConfig f env).PlaybookPath =
      (if env.ansiblePlaybook ≠ "" then env.ansiblePlaybook else f.playbook) ∧
    (loadConfig f env).InventoryPath =
      (if env.ansibleInventory ≠ "" then env.ansibleInventory else f.inventory) ∧
    (loadConfig f env).WatchInterval =
      (if env.watchInterval ≠ "" then
        (match atoi env.watchInterval with
         | some v => v
         | none => f.interval)
       else f.interval) ∧
    (loadConfig f env).WatchRepos =
      (if env.watchRepos ≠ "" then env.watchRepos.splitOn ","
       else if f.repos ≠ "" then f.repos.splitOn "," else []) ∧
    (loadConfig f env).Branch =
      (if env.watchBranch ≠ "" then env.watchBranch else f.branch) ∧
    (loadConfig f env).GitHubToken =
      (if env.githubToken ≠ "" then env.githubToken else f.githubToken) ∧
    (loadConfig f env).GitHubUser =
      (if env.githubUser ≠ "" then env.githubUser else f.githubUser) :=
  ⟨loadConfig_PlaybookPath f env, loadConfig_InventoryPath f env,
    loadConfig_WatchInterval f env, loadConfig_WatchRepos f env,
    loadConfig_Branch f env, loadConfig_GitHubToken f env,
    loadConfig_GitHubUser f env⟩

/-- Concrete flag values with interval 300. -/
def flagsA : Flags :=
  { playbook := "site.yml", inventory := "", interval := 300, repos := "/a",
    branch := "main", githubToken := "t", githubUser := "u" }

/-- Concrete flag values with interval 42. -/
def flagsB : Flags :=
  { playbook := "site.yml", inventory := "", interval := 42, repos := "/a",
    branch := "main", githubToken := "t", githubUser := "u" }

/-- Concrete environment with `WATCH_INTERVAL` set to the non-integer `abc`
and every other variable unset. -/
def envAbc : Env :=
  { ansiblePlaybook := "", ansibleInventory := "", watchInterval := "abc",
    watchRepos := "", watchBranch := "", githubToken := "", githubUser := "" }

/-- C9 counterexample: `WATCH_INTERVAL` is supplied as the non-empty
environment value `"abc"`, yet the configuration reaching validation keeps
the flag value — two different flag values show through unchanged — so the
environment does not take precedence for this option. -/
theorem C9_counterexample :
    envAbc.watchInterval ≠ "" ∧
    (loadConfig flagsA envAbc).WatchInterval = 300 ∧
    (loadConfig flagsB envAbc).WatchInterval = 42 := by
  refine ⟨by decide, rfl, rfl⟩

/-- C9 (amended): every option supplied through a non-empty environment
variable overrides the flag value, except the poll interval, which keeps the
flag (or default) value when its environment value does not parse as an
integer; options with an empty environment value keep the flag value. -/
theorem C9_env_overrides (f : Flags) (env : Env) :
    (loadConfig f env).PlaybookPath =
      (if env.ansiblePlaybook ≠ "" then env.ansiblePlaybook else f.playbook) ∧
    (loadConfig f env).InventoryPath =
      (if env.ansibleInventory ≠ "" then env.ansibleInventory else f.inventory) ∧
    (loadConfig f env).WatchInterval =
      (if env.watchInterval ≠ "" then
        (match atoi env.watchInterval with
         | some v => v
         | none => f.interval)
       else f.interval) ∧
    (loadConfig f env).WatchRepos =
      (if env.watchRepos ≠ "" then env.watchRepos.splitOn ","
       else if f.repos ≠ "" then f.repos.splitOn "," else []) ∧
    (loadConfig f env).Branch =
      (if env.watchBranch ≠ "" then env.watchBranch else f.branch) ∧
    (loadConfig f env).GitHubToken =
      (if env.githubToken ≠ "" then env.githubToken else f.githubToken) ∧
    (loadConfig f env).GitHubUser =
      (if env.githubUser ≠ "" then env.githubUser else f.githubUser) :=
  loadConfig_spec f env

/-- C10: a non-empty `WATCH_INTERVAL` environment value that does not parse
as an integer is silently ignored: the configuration keeps the interval taken
from the flag (or its default).  `LoadFromEnv` returns only a `Config` — it
has no error channel — so no error can be reported at load time. -/
theorem C10_bad_interval_env_ignored (f : Flags) (env : Env)
    (hne : env.watchInterval ≠ "") (hbad : atoi env.watchInterval = none) :
    (loadConfig f env).WatchInterval = f.interval := by
  have h := (loadConfig_spec f env).2.2.1
  rw [h, if_pos hne, hbad]

/-- Witness for C10: the concrete non-integer interval value `abc`. -/
theorem C10_bad_interval_env_ignored_witness :
    (loadConfig flagsA envAbc).WatchInterval = flagsA.interval :=
  C10_bad_interval_env_ignored flagsA envAbc (by decide) (by decide)

end GitOps
